import Mathlib

/-!
Verification of the muse agent runtime (src/muse/agents/base.py), the
orchestrator (src/muse/orchestrator.py) and the per-agent tool dispatch
(src/muse/agents/calendar_agent.py) via a shallow embedding.

External I/O is modelled by oracles:
- the Anthropic client `client.messages.create` is modelled as a function
  `create : Nat → Except String ModelMessage`, giving for each round index the
  response the service returns for that round of one `run` invocation, or the
  exception it raises (`Except.error`);
- an agent's `execute_tool` is modelled as
  `execute_tool : String → String → Except String PyVal`, mapping a tool name
  and its (opaque, JSON-encoded) input to the returned Python value, or the
  exception message it raises;
- the domain tool layers (CalendarTools and friends) are oracles of the same
  shape, keyed by method name.
-/

namespace Muse

/-- Decidable equality for Except, so that concrete runs can be checked by
decide. -/
instance {ε α : Type} [DecidableEq ε] [DecidableEq α] : DecidableEq (Except ε α) :=
  fun x y =>
    match x, y with
    | .ok a, .ok b => decidable_of_iff (a = b) (by simp)
    | .error a, .error b => decidable_of_iff (a = b) (by simp)
    | .ok _, .error _ => isFalse (by simp)
    | .error _, .ok _ => isFalse (by simp)

/-- Content block of a model message: a text block or a tool_use block
(anthropic.types.TextBlock / ToolUseBlock). The tool input dict is kept as an
opaque string because the agent loop only forwards it. -/
inductive ContentBlock where
  | text (t : String)
  | toolUse (id : String) (name : String) (input : String)
deriving DecidableEq

/-- Model response as seen by BaseAgent.run: a stop_reason and content blocks
(anthropic.types.Message, restricted to the fields the loop reads). -/
structure ModelMessage where
  stop_reason : String
  content : List ContentBlock
deriving DecidableEq

/-- Python value returned by execute_tool, as far as the loop's serialization
needs it: a plain str, or a dict with string keys and values (the shape the
agents' dispatch error path produces). -/
inductive PyVal where
  | str (s : String)
  | obj (fields : List (String × String))
deriving DecidableEq

/-- JSON string escaping as json.dumps performs it for the characters that can
occur here: backslash and double quote. -/
def jsonEscape (s : String) : String :=
  String.join (s.data.map fun c =>
    if c = '\\' then "\\\\" else if c = '"' then "\\\"" else String.singleton c)

/-- Rendering of the fields of a dict, json.dumps style (", " item separator,
": " key separator). -/
def jsonFields : List (String × String) → String
  | [] => ""
  | [(k, v)] => "\"" ++ jsonEscape k ++ "\": \"" ++ jsonEscape v ++ "\""
  | (k, v) :: rest =>
      "\"" ++ jsonEscape k ++ "\": \"" ++ jsonEscape v ++ "\", " ++ jsonFields rest

/-- Embedding of json.dumps on the PyVal fragment. -/
def jsonDumps : PyVal → String
  | .str s => "\"" ++ jsonEscape s ++ "\""
  | .obj fields => "\x7b" ++ jsonFields fields ++ "\x7d"

/-- Serialization of a tool result in base.py line 104: json.dumps(result) if
the result is not a str, else the str itself. -/
def serializeResult : PyVal → String
  | .str s => s
  | .obj fields => jsonDumps (.obj fields)

/-- A tool_result entry as built in base.py lines 101-115. The success path
does not set an is_error key, which the Anthropic API reads as false; that is
modelled by is_error := false. -/
structure ToolResult where
  tool_use_id : String
  content : String
  is_error : Bool
deriving DecidableEq

/-- One entry of BaseAgent.conversation_history. The four shapes the loop
appends: a plain user message, an assistant turn holding the model's raw
content blocks, a user turn holding tool results, and a final assistant text
turn. -/
inductive Turn where
  | userText (s : String)
  | assistantBlocks (bs : List ContentBlock)
  | userToolResults (rs : List ToolResult)
  | assistantText (s : String)
deriving DecidableEq

/-- Dispatch of a single content block in the tool-execution loop of base.py
lines 93-115: text blocks are skipped; for a ToolUseBlock, execute_tool is
tried, a success becomes a tool_result with the serialized value, an exception
becomes a tool_result with is_error true and the message
"Error executing tool: ..." . -/
def dispatchBlock (execute_tool : String → String → Except String PyVal) :
    ContentBlock → Option ToolResult
  | .text _ => none
  | .toolUse id name input =>
      some (match execute_tool name input with
        | .ok result =>
            { tool_use_id := id, content := serializeResult result, is_error := false }
        | .error e =>
            { tool_use_id := id, content := "Error executing tool: " ++ e,
              is_error := true })

/-- The tool_results list collected for one tool-use turn (base.py lines
92-115): one result per ToolUseBlock, in block order. -/
def collectToolResults (execute_tool : String → String → Except String PyVal)
    (blocks : List ContentBlock) : List ToolResult :=
  blocks.filterMap (dispatchBlock execute_tool)

/-- The tool_use blocks of a content list, for counting dispatches. -/
def toolUseBlocks (blocks : List ContentBlock) : List ContentBlock :=
  blocks.filter fun b => match b with
    | .toolUse _ _ _ => true
    | _ => false

/-- The text blocks of a content list, in order (base.py lines 125-128). -/
def textParts (blocks : List ContentBlock) : List String :=
  blocks.filterMap fun b => match b with
    | .text t => some t
    | _ => none

/-- The fixed fallback string of base.py line 141, returned when the round
bound is exhausted. -/
def fallbackMessage : String :=
  "I\x27m having trouble completing this request. Could you try rephrasing?"

/-- The for-loop of BaseAgent.run (base.py lines 72-141). `round` is the
current round index (`round_num`), `fuel` the number of remaining loop
iterations, `history` the conversation history at loop entry. Returns the
value run returns (Except.error e models a propagated model-service exception)
together with the conversation history left in the agent. -/
def runLoop (create : Nat → Except String ModelMessage)
    (execute_tool : String → String → Except String PyVal) :
    Nat → Nat → List Turn → Except String String × List Turn
  | _, 0, history => (Except.ok fallbackMessage, history)
  | round, fuel + 1, history =>
      match create round with
      | .error e => (.error e, history)
      | .ok response =>
        if response.stop_reason = "tool_use" then
          let history1 := history ++ [Turn.assistantBlocks response.content]
          let results := collectToolResults execute_tool response.content
          let history2 := history1 ++ [Turn.userToolResults results]
          runLoop create execute_tool (round + 1) fuel history2
        else
          let assistant_text := String.intercalate "\n" (textParts response.content)
          (.ok assistant_text, history ++ [Turn.assistantText assistant_text])

/-- Mutable state of a BaseAgent instance: its conversation history and its
round bound (base.py lines 34-35; max_tool_rounds defaults to 10). -/
structure BaseAgent where
  conversation_history : List Turn := []
  max_tool_rounds : Nat := 10
deriving DecidableEq

/-- A freshly constructed agent: empty history, default round bound. -/
def freshAgent : BaseAgent := {}

/-- BaseAgent.run (base.py lines 62-141): append the user message as a user
turn, then drive the round loop. Returns the returned value (or the
propagated model-service exception) and the updated agent. -/
def BaseAgent.run (agent : BaseAgent)
    (create : Nat → Except String ModelMessage)
    (execute_tool : String → String → Except String PyVal)
    (user_message : String) : Except String String × BaseAgent :=
  let history0 := agent.conversation_history ++ [Turn.userText user_message]
  let out := runLoop create execute_tool 0 agent.max_tool_rounds history0
  (out.1, { agent with conversation_history := out.2 })

/-- BaseAgent.reset (base.py lines 143-145): clear the conversation history. -/
def BaseAgent.reset (agent : BaseAgent) : BaseAgent :=
  { agent with conversation_history := [] }

/-- The two turns a completed tool-use round with the given model response
appends to the history. -/
def roundTurns (execute_tool : String → String → Except String PyVal)
    (m : ModelMessage) : List Turn :=
  [Turn.assistantBlocks m.content,
   Turn.userToolResults (collectToolResults execute_tool m.content)]

/-- The turns appended by k consecutive completed tool-use rounds starting at
round index r, when the model response at round i is msgs i. -/
def traceFrom (msgs : Nat → ModelMessage)
    (execute_tool : String → String → Except String PyVal) :
    Nat → Nat → List Turn
  | _, 0 => []
  | r, k + 1 => roundTurns execute_tool (msgs r) ++ traceFrom msgs execute_tool (r + 1) k

/-- The tool names CalendarAgent.execute_tool recognizes (the if/elif chain,
calendar_agent.py lines 256-316). -/
def calendarToolNames : List String :=
  ["create_event", "list_events", "update_event", "delete_event",
   "check_conflicts", "find_availability"]

/-- CalendarAgent.execute_tool (calendar_agent.py lines 253-319). The
CalendarTools methods (and the GigEvent construction feeding create_event,
which may itself raise on malformed input) are abstracted into the oracle
`calendar`, keyed by method name; any exception raised inside a recognized
branch is the oracle's Except.error. Names outside the if/elif chain fall
through to the else branch, which returns an error dict rather than raising. -/
def CalendarAgent.execute_tool
    (calendar : String → String → Except String PyVal)
    (tool_name : String) (tool_input : String) : Except String PyVal :=
  if tool_name = "create_event" then calendar "create_event" tool_input
  else if tool_name = "list_events" then calendar "list_events" tool_input
  else if tool_name = "update_event" then calendar "update_event" tool_input
  else if tool_name = "delete_event" then calendar "delete_event" tool_input
  else if tool_name = "check_conflicts" then calendar "check_conflicts" tool_input
  else if tool_name = "find_availability" then calendar "find_availability" tool_input
  else .ok (.obj [("error", "Unknown tool: " ++ tool_name)])

/-- The closed category set of Orchestrator._classify (orchestrator.py line
137). A list rather than a set; only membership is used. -/
def validCategories : List String :=
  ["CALENDAR", "SOCIAL", "INVOICE", "EMAIL", "CRM", "GENERAL"]

/-- Embedding of Python str.strip() (no argument): drop whitespace from both
ends. Whitespace is modelled by Char.isWhitespace (space, tab, CR, LF), which
covers every character the claims exercise. -/
def pyStrip (s : String) : String :=
  ⟨((s.data.dropWhile Char.isWhitespace).reverse.dropWhile Char.isWhitespace).reverse⟩

/-- Embedding of Python str.upper() on the ASCII range the router labels live
in: uppercase each character. -/
def pyUpper (s : String) : String :=
  ⟨s.data.map Char.toUpper⟩

/-- Validation step of Orchestrator._classify (orchestrator.py lines 134-141),
applied to the raw text of the model response's first content block: strip,
uppercase, then fall back to GENERAL if the result is not in the closed set.
The model call itself is external; this is the pure part that decides the
label. -/
def classifyToken (raw : String) : String :=
  let category := pyUpper (pyStrip raw)
  if category ∈ validCategories then category else "GENERAL"

/-- State of an Orchestrator instance: the five lazily constructed agent
slots (orchestrator.py lines 38-42), each None until first use. -/
structure Orchestrator where
  calendar_agent : Option BaseAgent := none
  email_agent : Option BaseAgent := none
  invoice_agent : Option BaseAgent := none
  social_agent : Option BaseAgent := none
  crm_agent : Option BaseAgent := none
deriving DecidableEq

/-- The five routing labels with a bound agent (the keys of the agent_map in
_get_agent, orchestrator.py lines 90-96). -/
def boundCategories : List String :=
  ["CALENDAR", "EMAIL", "INVOICE", "SOCIAL", "CRM"]

/-- The slot bound to a category: some slot for the five bound labels, none
for GENERAL and anything else (the agent_map of _get_agent, orchestrator.py
lines 90-96). -/
def Orchestrator.getSlot (o : Orchestrator) : String → Option (Option BaseAgent)
  | "CALENDAR" => some o.calendar_agent
  | "EMAIL" => some o.email_agent
  | "INVOICE" => some o.invoice_agent
  | "SOCIAL" => some o.social_agent
  | "CRM" => some o.crm_agent
  | _ => none

/-- Store an agent into the slot of a category; no-op for unbound labels. -/
def Orchestrator.setSlot (o : Orchestrator) (category : String) (a : BaseAgent) :
    Orchestrator :=
  match category with
  | "CALENDAR" => { o with calendar_agent := some a }
  | "EMAIL" => { o with email_agent := some a }
  | "INVOICE" => { o with invoice_agent := some a }
  | "SOCIAL" => { o with social_agent := some a }
  | "CRM" => { o with crm_agent := some a }
  | _ => o

/-- Orchestrator._get_agent plus the lazy properties (orchestrator.py lines
46-98): none for an unbound label; for a bound label, the cached instance if
the slot is filled, otherwise a freshly constructed agent which is cached.
Returns the resolved agent together with the updated orchestrator state. -/
def Orchestrator.getAgent (o : Orchestrator) (category : String) :
    Option (BaseAgent × Orchestrator) :=
  match o.getSlot category with
  | none => none
  | some (some a) => some (a, o)
  | some none => some (freshAgent, o.setSlot category freshAgent)

/-- The static capability-summary message of Orchestrator.route (orchestrator.py
lines 116-124). -/
def capabilitiesMessage : String :=
  "Hey! I\x27m Muse, your AI manager. I can help you with:\n\n" ++
  "📅 **Calendar** — schedule gigs, sessions, rehearsals, check availability\n" ++
  "📧 **Email** — inbox triage, draft replies, extract gig details\n" ++
  "💰 **Invoicing** — create invoices, generate PDFs, track payments\n" ++
  "📱 **Social Media** — draft Instagram posts, voice-matched captions, hashtags\n" ++
  "👥 **CRM** — manage contacts, log meeting notes, track relationships\n\n" ++
  "What can I help you with?"

/-- Orchestrator.route (orchestrator.py lines 102-124). `classifierRaw` is the
raw token the classification model call returned; the agent's own model calls
and tool layer are the oracles `create` and `execute_tool`. On a bound label
the resolved agent's run result (or its propagated exception) is returned and
the mutated agent is kept in its slot; otherwise the static capability summary
is returned with the label GENERAL and the state untouched. -/
def Orchestrator.route (o : Orchestrator) (classifierRaw : String)
    (create : Nat → Except String ModelMessage)
    (execute_tool : String → String → Except String PyVal)
    (user_message : String) : Except String (String × String) × Orchestrator :=
  let category := classifyToken classifierRaw
  match o.getAgent category with
  | some (agent, o1) =>
      let out := agent.run create execute_tool user_message
      (out.1.map fun text => (category, text), o1.setSlot category out.2)
  | none => (.ok ("GENERAL", capabilitiesMessage), o)

/-- Orchestrator.reset (orchestrator.py lines 143-149): reset every agent that
has been constructed; slots still None are left as None. -/
def Orchestrator.reset (o : Orchestrator) : Orchestrator :=
  { calendar_agent := o.calendar_agent.map BaseAgent.reset,
    email_agent := o.email_agent.map BaseAgent.reset,
    invoice_agent := o.invoice_agent.map BaseAgent.reset,
    social_agent := o.social_agent.map BaseAgent.reset,
    crm_agent := o.crm_agent.map BaseAgent.reset }

set_option maxRecDepth 10000

/-! Helper lemmas about the round loop. -/

/-- Exhausted fuel returns the fallback string and leaves the history as is. -/
theorem runLoop_zero (create : Nat → Except String ModelMessage)
    (execute_tool : String → String → Except String PyVal) (r : Nat) (h : List Turn) :
    runLoop create execute_tool r 0 h = (Except.ok fallbackMessage, h) := rfl

/-- A model-service exception propagates immediately, leaving the history as
it was at the start of the round. -/
theorem runLoop_modelError (create : Nat → Except String ModelMessage)
    (execute_tool : String → String → Except String PyVal) (r fuel : Nat)
    (h : List Turn) (e : String) (he : create r = .error e) :
    runLoop create execute_tool r (fuel + 1) h = (.error e, h) := by
  simp [runLoop, he]

/-- A tool-use round appends the assistant turn and the tool-result user turn
and continues with the next round. -/
theorem runLoop_toolUse_step (create : Nat → Except String ModelMessage)
    (execute_tool : String → String → Except String PyVal) (r fuel : Nat)
    (h : List Turn) (m : ModelMessage)
    (hm : create r = .ok m) (hs : m.stop_reason = "tool_use") :
    runLoop create execute_tool r (fuel + 1) h =
      runLoop create execute_tool (r + 1) fuel (h ++ roundTurns execute_tool m) := by
  simp [runLoop, hm, hs, roundTurns]

/-- A final (non-tool-use) turn returns the newline-join of its text segments
and appends it as an assistant turn. -/
theorem runLoop_final_step (create : Nat → Except String ModelMessage)
    (execute_tool : String → String → Except String PyVal) (r fuel : Nat)
    (h : List Turn) (m : ModelMessage)
    (hm : create r = .ok m) (hs : ¬ m.stop_reason = "tool_use") :
    runLoop create execute_tool r (fuel + 1) h =
      (Except.ok (String.intercalate "\n" (textParts m.content)),
       h ++ [Turn.assistantText (String.intercalate "\n" (textParts m.content))]) := by
  simp [runLoop, hm, hs]

/-- The history at loop entry is a prefix of the history the loop leaves
behind, whatever the model and the tools do. -/
theorem runLoop_prefix_mono (create : Nat → Except String ModelMessage)
    (execute_tool : String → String → Except String PyVal) :
    ∀ (fuel r : Nat) (h : List Turn),
      h <+: (runLoop create execute_tool r fuel h).2 := by
  intro fuel
  induction fuel with
  | zero => intro r h; exact List.prefix_refl _
  | succ n ih =>
    intro r h
    cases hc : create r with
    | error e =>
        rw [runLoop_modelError create execute_tool r n h e hc]
    | ok m =>
        by_cases hs : m.stop_reason = "tool_use"
        · rw [runLoop_toolUse_step create execute_tool r n h m hc hs]
          exact (List.prefix_append h (roundTurns execute_tool m)).trans
            (ih (r + 1) (h ++ roundTurns execute_tool m))
        · rw [runLoop_final_step create execute_tool r n h m hc hs]
          exact List.prefix_append _ _

/-- Running k consecutive tool-use rounds unfolds the loop to round r + k
with the per-round turns appended. -/
theorem runLoop_trace (create : Nat → Except String ModelMessage)
    (execute_tool : String → String → Except String PyVal) (msgs : Nat → ModelMessage) :
    ∀ (k r fuel : Nat) (h : List Turn),
      (∀ i, i < k →
        create (r + i) = .ok (msgs (r + i)) ∧ (msgs (r + i)).stop_reason = "tool_use") →
      k ≤ fuel →
      runLoop create execute_tool r fuel h =
        runLoop create execute_tool (r + k) (fuel - k) (h ++ traceFrom msgs execute_tool r k) := by
  intro k
  induction k with
  | zero => intro r fuel h _ _; simp [traceFrom]
  | succ n ih =>
    intro r fuel h htool hk
    obtain ⟨hm, hs⟩ := htool 0 (Nat.succ_pos n)
    obtain ⟨fuel1, rfl⟩ : ∃ f, fuel = f + 1 := ⟨fuel - 1, by omega⟩
    rw [runLoop_toolUse_step create execute_tool r fuel1 h (msgs r)
      (by simpa using hm) (by simpa using hs)]
    rw [ih (r + 1) fuel1 (h ++ roundTurns execute_tool (msgs r))
      (fun i hi => by
        have hidx : r + 1 + i = r + (i + 1) := by omega
        rw [hidx]
        exact htool (i + 1) (by omega))
      (by omega)]
    have e1 : r + 1 + n = r + (n + 1) := by omega
    have e2 : fuel1 - n = fuel1 + 1 - (n + 1) := by omega
    rw [e1, e2, traceFrom, List.append_assoc]

/-- The turns appended by k tool-use rounds number exactly 2k. -/
theorem traceFrom_length (msgs : Nat → ModelMessage)
    (execute_tool : String → String → Except String PyVal) :
    ∀ (k r : Nat), (traceFrom msgs execute_tool r k).length = 2 * k := by
  intro k
  induction k with
  | zero => intro r; rfl
  | succ n ih =>
    intro r
    simp only [traceFrom, roundTurns, List.length_append, List.length_cons,
      List.length_nil, ih]
    omega

/-- No turn appended by a tool-use round is a plain assistant text turn. -/
theorem traceFrom_no_assistantText (msgs : Nat → ModelMessage)
    (execute_tool : String → String → Except String PyVal) :
    ∀ (k r : Nat) (t : Turn), t ∈ traceFrom msgs execute_tool r k →
      ∀ s, t ≠ Turn.assistantText s := by
  intro k
  induction k with
  | zero => intro r t ht; simp [traceFrom] at ht
  | succ n ih =>
    intro r t ht s
    rw [traceFrom] at ht
    rcases List.mem_append.mp ht with h1 | h2
    · simp only [roundTurns, List.mem_cons, List.not_mem_nil, or_false] at h1
      rcases h1 with rfl | rfl <;> simp
    · exact ih (r + 1) t h2 s

/-- Every tool_use block of a turn receives exactly one tool result. -/
theorem collectToolResults_length (execute_tool : String → String → Except String PyVal) :
    ∀ blocks : List ContentBlock,
      (collectToolResults execute_tool blocks).length = (toolUseBlocks blocks).length := by
  intro blocks
  induction blocks with
  | nil => rfl
  | cons b bs ih =>
    cases b with
    | text t =>
        simpa [collectToolResults, toolUseBlocks, dispatchBlock, List.filter_cons] using ih
    | toolUse id name input =>
        simp only [collectToolResults, toolUseBlocks, dispatchBlock,
          List.filterMap_cons_some, List.filter_cons_of_pos, List.length_cons]
        exact congrArg Nat.succ ih

/-- A tool call whose dispatch raises yields an is_error result carrying the
fault message. -/
theorem mem_collectToolResults_of_error
    (execute_tool : String → String → Except String PyVal) (blocks : List ContentBlock)
    (id name input e : String)
    (hb : ContentBlock.toolUse id name input ∈ blocks)
    (he : execute_tool name input = .error e) :
    ({ tool_use_id := id, content := "Error executing tool: " ++ e,
       is_error := true } : ToolResult) ∈ collectToolResults execute_tool blocks := by
  refine List.mem_filterMap.mpr ⟨ContentBlock.toolUse id name input, hb, ?_⟩
  simp [dispatchBlock, he]

/-- A tool call whose dispatch succeeds yields a non-error result carrying the
serialized value. -/
theorem mem_collectToolResults_of_ok
    (execute_tool : String → String → Except String PyVal) (blocks : List ContentBlock)
    (id name input : String) (v : PyVal)
    (hb : ContentBlock.toolUse id name input ∈ blocks)
    (hv : execute_tool name input = .ok v) :
    ({ tool_use_id := id, content := serializeResult v,
       is_error := false } : ToolResult) ∈ collectToolResults execute_tool blocks := by
  refine List.mem_filterMap.mpr ⟨ContentBlock.toolUse id name input, hb, ?_⟩
  simp [dispatchBlock, hv]

/-- Writing a bound slot twice keeps only the second write. -/
theorem setSlot_setSlot (o : Orchestrator) (cat : String) (a b : BaseAgent)
    (hcat : cat ∈ boundCategories) :
    (o.setSlot cat a).setSlot cat b = o.setSlot cat b := by
  fin_cases hcat <;> rfl

/-- BaseAgent.run in terms of the round loop. -/
theorem BaseAgent.run_eq (agent : BaseAgent) (create : Nat → Except String ModelMessage)
    (execute_tool : String → String → Except String PyVal) (u : String) :
    agent.run create execute_tool u =
      ((runLoop create execute_tool 0 agent.max_tool_rounds
          (agent.conversation_history ++ [Turn.userText u])).1,
       { agent with conversation_history :=
          (runLoop create execute_tool 0 agent.max_tool_rounds
            (agent.conversation_history ++ [Turn.userText u])).2 }) := rfl

/-! Claims. -/

/-- Claim C1, counterexample: with k = 0 and a final turn holding the two text
segments "a" and "b", run returns "a\nb" — the segments joined with a newline —
which is not their concatenation "ab". The history does grow by 2k + 2 = 2
turns. -/
theorem C1_counterexample :
    (BaseAgent.run {} (fun _ => .ok ⟨"end_turn", [.text "a", .text "b"]⟩)
        (fun _ _ => .ok (.str "")) "hi").1 = .ok "a\nb" ∧
    (BaseAgent.run {} (fun _ => .ok ⟨"end_turn", [.text "a", .text "b"]⟩)
        (fun _ _ => .ok (.str "")) "hi").2.conversation_history =
      [Turn.userText "hi", Turn.assistantText "a\nb"] ∧
    "a\nb" ≠ "a" ++ "b" := by
  refine ⟨rfl, rfl, by decide⟩

/-- Claim C1 (amended): for every execution of BaseAgent.run in which the
model returns k rounds of tool-use turns (k < the round bound) followed by a
final text turn, run returns the final turn's text segments joined in order
with newline separators, and the history grows by exactly 2k + 2 turns: the
initial user turn, one assistant turn plus one tool-result user turn per
round, and the terminal assistant turn. -/
theorem C1_run_final_text (agent : BaseAgent) (create : Nat → Except String ModelMessage)
    (execute_tool : String → String → Except String PyVal) (msgs : Nat → ModelMessage)
    (mf : ModelMessage) (k : Nat) (u : String)
    (htool : ∀ i, i < k → create i = .ok (msgs i) ∧ (msgs i).stop_reason = "tool_use")
    (hfin : create k = .ok mf) (hfs : ¬ mf.stop_reason = "tool_use")
    (hk : k < agent.max_tool_rounds) :
    agent.run create execute_tool u =
      (.ok (String.intercalate "\n" (textParts mf.content)),
       { agent with conversation_history :=
           agent.conversation_history ++ [Turn.userText u] ++
           traceFrom msgs execute_tool 0 k ++
           [Turn.assistantText (String.intercalate "\n" (textParts mf.content))] }) ∧
    (agent.run create execute_tool u).2.conversation_history.length =
      agent.conversation_history.length + (2 * k + 2) := by
  have htrace := runLoop_trace create execute_tool msgs k 0 agent.max_tool_rounds
    (agent.conversation_history ++ [Turn.userText u])
    (fun i hi => by simpa using htool i hi) (Nat.le_of_lt hk)
  obtain ⟨m1, hm1⟩ : ∃ f, agent.max_tool_rounds - k = f + 1 :=
    ⟨agent.max_tool_rounds - k - 1, by omega⟩
  rw [hm1] at htrace
  rw [runLoop_final_step create execute_tool (0 + k) m1 _ mf (by simpa using hfin) hfs]
    at htrace
  have hrun := BaseAgent.run_eq agent create execute_tool u
  rw [htrace] at hrun
  constructor
  · rw [hrun]
  · rw [hrun]
    simp [traceFrom_length]

/-- Witness for C1 at a concrete execution with k = 1. -/
theorem C1_witness :
    (BaseAgent.run {}
      (fun i => if i = 0 then .ok ⟨"tool_use", [.toolUse "a" "t" "x"]⟩
                else .ok ⟨"end_turn", [.text "done"]⟩)
      (fun _ _ => .ok (.str "ok")) "hi").2.conversation_history.length = 2 * 1 + 2 := by
  have h := C1_run_final_text {}
    (fun i => if i = 0 then .ok ⟨"tool_use", [.toolUse "a" "t" "x"]⟩
              else .ok ⟨"end_turn", [.text "done"]⟩)
    (fun _ _ => .ok (.str "ok"))
    (fun _ => ⟨"tool_use", [.toolUse "a" "t" "x"]⟩)
    ⟨"end_turn", [.text "done"]⟩ 1 "hi"
    (by decide) (by decide) (by decide) (by decide)
  simpa using h.2

/-- Claim C2: if the model never returns a final turn, run returns the fixed
fallback string after exactly N rounds of the bound N (default 10), never
N + 1 (the result does not depend on any response past index N - 1); the
fallback is not appended as an assistant turn, and the history retains
exactly the initial user turn plus the 2N turns of the N rounds. -/
theorem C2_round_bound (agent : BaseAgent) (create : Nat → Except String ModelMessage)
    (execute_tool : String → String → Except String PyVal) (msgs : Nat → ModelMessage)
    (u : String)
    (htool : ∀ i, i < agent.max_tool_rounds →
      create i = .ok (msgs i) ∧ (msgs i).stop_reason = "tool_use") :
    agent.run create execute_tool u =
      (.ok fallbackMessage,
       { agent with conversation_history :=
           agent.conversation_history ++ [Turn.userText u] ++
           traceFrom msgs execute_tool 0 agent.max_tool_rounds }) ∧
    (agent.run create execute_tool u).2.conversation_history.length =
      agent.conversation_history.length + (2 * agent.max_tool_rounds + 1) ∧
    (∀ t, t ∈ (agent.run create execute_tool u).2.conversation_history →
       t ∉ agent.conversation_history → t ≠ Turn.userText u →
       ∀ s, t ≠ Turn.assistantText s) ∧
    (∀ create2 : Nat → Except String ModelMessage,
       (∀ i, i < agent.max_tool_rounds → create2 i = create i) →
       agent.run create2 execute_tool u = agent.run create execute_tool u) ∧
    freshAgent.max_tool_rounds = 10 := by
  have main : ∀ c : Nat → Except String ModelMessage,
      (∀ i, i < agent.max_tool_rounds →
        c i = .ok (msgs i) ∧ (msgs i).stop_reason = "tool_use") →
      agent.run c execute_tool u =
        (.ok fallbackMessage,
         { agent with conversation_history :=
             agent.conversation_history ++ [Turn.userText u] ++
             traceFrom msgs execute_tool 0 agent.max_tool_rounds }) := by
    intro c hc
    have htrace := runLoop_trace c execute_tool msgs agent.max_tool_rounds 0
      agent.max_tool_rounds (agent.conversation_history ++ [Turn.userText u])
      (fun i hi => by simpa using hc i hi) (Nat.le_refl _)
    rw [Nat.sub_self, runLoop_zero] at htrace
    have hrun := BaseAgent.run_eq agent c execute_tool u
    rw [htrace] at hrun
    rw [hrun]
  refine ⟨main create htool, ?_, ?_, ?_, rfl⟩
  · rw [main create htool]
    simp [traceFrom_length]
  · intro t ht hto htu s
    rw [main create htool] at ht
    simp only [List.append_assoc, List.mem_append, List.mem_singleton] at ht
    rcases ht with h1 | h2 | h3
    · exact absurd h1 hto
    · exact absurd h2 htu
    · exact traceFrom_no_assistantText msgs execute_tool agent.max_tool_rounds 0 t h3 s
  · intro create2 hag
    rw [main create htool, main create2
      (fun i hi => by rw [hag i hi]; exact htool i hi)]

/-- Witness for C2 with round bound 3: run returns the fallback string and
the history holds 7 turns (the user turn plus 2 * 3 round turns). -/
theorem C2_witness :
    (BaseAgent.run { conversation_history := [], max_tool_rounds := 3 }
      (fun _ => .ok ⟨"tool_use", [.toolUse "a" "t" ""]⟩)
      (fun _ _ => .ok (.str "r")) "hi").1 = .ok fallbackMessage ∧
    (BaseAgent.run { conversation_history := [], max_tool_rounds := 3 }
      (fun _ => .ok ⟨"tool_use", [.toolUse "a" "t" ""]⟩)
      (fun _ _ => .ok (.str "r")) "hi").2.conversation_history.length = 7 := by
  have h := C2_round_bound { conversation_history := [], max_tool_rounds := 3 }
    (fun _ => .ok ⟨"tool_use", [.toolUse "a" "t" ""]⟩)
    (fun _ _ => .ok (.str "r"))
    (fun _ => ⟨"tool_use", [.toolUse "a" "t" ""]⟩) "hi" (by decide)
  exact ⟨by rw [h.1], by simpa using h.2.1⟩

/-- Claim C3: in a tool-use round, a tool call whose dispatch raises becomes a
ToolResult with is_error true carrying the fault message, every tool call of
the turn still receives its own result, all results form a single user turn,
and the loop proceeds to the next model call — no exception propagates out of
the round. -/
theorem C3_tool_fault_localized (create : Nat → Except String ModelMessage)
    (execute_tool : String → String → Except String PyVal) (r fuel : Nat)
    (h : List Turn) (m : ModelMessage)
    (hm : create r = .ok m) (hs : m.stop_reason = "tool_use") :
    runLoop create execute_tool r (fuel + 1) h =
      runLoop create execute_tool (r + 1) fuel
        (h ++ [Turn.assistantBlocks m.content,
               Turn.userToolResults (collectToolResults execute_tool m.content)]) ∧
    (collectToolResults execute_tool m.content).length =
      (toolUseBlocks m.content).length ∧
    (∀ id name input e, ContentBlock.toolUse id name input ∈ m.content →
       execute_tool name input = .error e →
       ({ tool_use_id := id, content := "Error executing tool: " ++ e,
          is_error := true } : ToolResult) ∈ collectToolResults execute_tool m.content) ∧
    (∀ id name input v, ContentBlock.toolUse id name input ∈ m.content →
       execute_tool name input = .ok v →
       ({ tool_use_id := id, content := serializeResult v,
          is_error := false } : ToolResult) ∈ collectToolResults execute_tool m.content) := by
  refine ⟨?_, collectToolResults_length execute_tool m.content, ?_, ?_⟩
  · rw [runLoop_toolUse_step create execute_tool r fuel h m hm hs]
    rfl
  · intro id name input e hb he
    exact mem_collectToolResults_of_error execute_tool m.content id name input e hb he
  · intro id name input v hb hv
    exact mem_collectToolResults_of_ok execute_tool m.content id name input v hb hv

/-- Witness for C3 at the spec's concrete scenario: two tool calls in one
turn, "lookup" succeeds and "unknown" faults; the faulting call's result is an
is_error ToolResult with the fault message. -/
theorem C3_witness :
    ({ tool_use_id := "b", content := "Error executing tool: boom",
       is_error := true } : ToolResult) ∈
      collectToolResults
        (fun name _ => if name = "lookup" then .ok (.str "found") else .error "boom")
        [ContentBlock.toolUse "a" "lookup" "x", ContentBlock.toolUse "b" "unknown" "y"] := by
  have h := C3_tool_fault_localized
    (fun _ => .ok ⟨"tool_use",
      [ContentBlock.toolUse "a" "lookup" "x", ContentBlock.toolUse "b" "unknown" "y"]⟩)
    (fun name _ => if name = "lookup" then .ok (.str "found") else .error "boom")
    0 0 []
    ⟨"tool_use", [ContentBlock.toolUse "a" "lookup" "x", ContentBlock.toolUse "b" "unknown" "y"]⟩
    rfl rfl
  exact h.2.2.1 "b" "unknown" "y" "boom" (by decide) (by decide)

/-- Claim C4, counterexample: CalendarAgent.execute_tool returns an error dict
for an unknown tool name instead of raising, so the appended tool_result goes
through the success path of base.py and carries is_error false — not
is_error true as a dispatch-fault result would. No exception escapes, but the
result is not identical in shape to a dispatch-fault result. -/
theorem C4_counterexample :
    CalendarAgent.execute_tool (fun _ _ => .error "unused") "unknown_tool" "" =
      .ok (.obj [("error", "Unknown tool: unknown_tool")]) ∧
    collectToolResults (CalendarAgent.execute_tool (fun _ _ => .error "unused"))
        [ContentBlock.toolUse "a" "unknown_tool" ""] =
      [{ tool_use_id := "a",
         content := "\x7b\"error\": \"Unknown tool: unknown_tool\"\x7d",
         is_error := false }] ∧
    (∀ res, res ∈ collectToolResults (CalendarAgent.execute_tool (fun _ _ => .error "unused"))
        [ContentBlock.toolUse "a" "unknown_tool" ""] → res.is_error = false) := by
  refine ⟨rfl, rfl, by decide⟩

/-- Claim C4 (amended): for every tool name outside the agent's dispatch
chain, execute_tool returns — without raising — a dict with an "error" key
carrying a descriptive message; the appended ToolResult therefore carries the
JSON-serialized message in its content with is_error false (unlike a
dispatch-fault result, which carries is_error true), and no exception escapes
the round. -/
theorem C4_unknown_tool (calendar : String → String → Except String PyVal)
    (name input id : String) (hname : name ∉ calendarToolNames) :
    CalendarAgent.execute_tool calendar name input =
      .ok (.obj [("error", "Unknown tool: " ++ name)]) ∧
    dispatchBlock (CalendarAgent.execute_tool calendar)
        (ContentBlock.toolUse id name input) =
      some { tool_use_id := id,
             content := jsonDumps (.obj [("error", "Unknown tool: " ++ name)]),
             is_error := false } ∧
    (∀ e, CalendarAgent.execute_tool calendar name input ≠ .error e) := by
  simp only [calendarToolNames, List.mem_cons, List.not_mem_nil, or_false, not_or] at hname
  obtain ⟨h1, h2, h3, h4, h5, h6⟩ := hname
  have hexec : CalendarAgent.execute_tool calendar name input =
      .ok (.obj [("error", "Unknown tool: " ++ name)]) := by
    simp [CalendarAgent.execute_tool, h1, h2, h3, h4, h5, h6]
  refine ⟨hexec, ?_, ?_⟩
  · simp [dispatchBlock, hexec, serializeResult]
  · intro e he
    rw [hexec] at he
    exact Except.noConfusion he

/-- Witness for C4 at the name "unknown_tool". -/
theorem C4_witness :
    CalendarAgent.execute_tool (fun _ _ => .ok (.str "")) "unknown_tool" "in" =
      .ok (.obj [("error", "Unknown tool: unknown_tool")]) := by
  exact (C4_unknown_tool (fun _ _ => .ok (.str "")) "unknown_tool" "in" "id"
    (by decide)).1

/-- Claim C5: within one run invocation the history is append-only: a
tool-use round hands the next round exactly the prior history plus the
assistant turn and the tool-result user turn it produced, and the history at
any point of the loop is a prefix of the history the loop leaves behind — no
round deletes or reorders prior turns. -/
theorem C5_history_append_only (create : Nat → Except String ModelMessage)
    (execute_tool : String → String → Except String PyVal) :
    (∀ (r fuel : Nat) (h : List Turn) (m : ModelMessage),
       create r = .ok m → m.stop_reason = "tool_use" →
       runLoop create execute_tool r (fuel + 1) h =
         runLoop create execute_tool (r + 1) fuel
           (h ++ [Turn.assistantBlocks m.content,
                  Turn.userToolResults (collectToolResults execute_tool m.content)])) ∧
    (∀ (fuel r : Nat) (h : List Turn),
       h <+: (runLoop create execute_tool r fuel h).2) ∧
    (∀ (agent : BaseAgent) (u : String),
       agent.conversation_history ++ [Turn.userText u] <+:
         (agent.run create execute_tool u).2.conversation_history) := by
  refine ⟨?_, runLoop_prefix_mono create execute_tool, ?_⟩
  · intro r fuel h m hm hs
    rw [runLoop_toolUse_step create execute_tool r fuel h m hm hs]
    rfl
  · intro agent u
    rw [BaseAgent.run_eq]
    exact runLoop_prefix_mono create execute_tool agent.max_tool_rounds 0
      (agent.conversation_history ++ [Turn.userText u])

/-- Witness for C5 at a concrete round. -/
theorem C5_witness :
    runLoop (fun _ => .ok ⟨"tool_use", [ContentBlock.toolUse "a" "t" ""]⟩)
        (fun _ _ => .ok (.str "r")) 0 1 [] =
      runLoop (fun _ => .ok ⟨"tool_use", [ContentBlock.toolUse "a" "t" ""]⟩)
        (fun _ _ => .ok (.str "r")) 1 0
        ([] ++ [Turn.assistantBlocks [ContentBlock.toolUse "a" "t" ""],
                Turn.userToolResults
                  (collectToolResults (fun _ _ => .ok (.str "r"))
                    [ContentBlock.toolUse "a" "t" ""])]) := by
  exact (C5_history_append_only
    (fun _ => .ok ⟨"tool_use", [ContentBlock.toolUse "a" "t" ""]⟩)
    (fun _ _ => .ok (.str "r"))).1 0 0 []
    ⟨"tool_use", [ContentBlock.toolUse "a" "t" ""]⟩ rfl rfl

/-- Claim C6, counterexample: the token "calendar" is not a member of the
closed set, yet _classify does not fall back to GENERAL: it strips and
uppercases the token first and returns CALENDAR. -/
theorem C6_counterexample :
    "calendar" ∉ validCategories ∧
    classifyToken "calendar" = "CALENDAR" ∧
    "CALENDAR" ≠ "GENERAL" := by
  refine ⟨by decide, by decide, by decide⟩

/-- Claim C6 (amended): _classify strips and uppercases the returned token;
whenever the normalized token is not a member of the closed set (which covers
the empty string, whitespace, and multi-word text), it returns the default
label GENERAL, and it always returns a member of the closed set — it never
throws. -/
theorem C6_classify_fallback :
    (∀ raw, pyUpper (pyStrip raw) ∉ validCategories → classifyToken raw = "GENERAL") ∧
    (∀ raw, classifyToken raw ∈ validCategories) ∧
    classifyToken "" = "GENERAL" ∧
    classifyToken "   " = "GENERAL" ∧
    classifyToken "I am not sure which" = "GENERAL" := by
  refine ⟨?_, ?_, by decide, by decide, by decide⟩
  · intro raw hraw
    simp [classifyToken, hraw]
  · intro raw
    by_cases hraw : pyUpper (pyStrip raw) ∈ validCategories
    · have heq : classifyToken raw = pyUpper (pyStrip raw) := by
        simp [classifyToken, hraw]
      rw [heq]
      exact hraw
    · have heq : classifyToken raw = "GENERAL" := by
        simp [classifyToken, hraw]
      rw [heq]
      decide

/-- Witness for C6 at the spec's out-of-set token "UNSURE". -/
theorem C6_witness : classifyToken "UNSURE" = "GENERAL" := by
  exact C6_classify_fallback.1 "UNSURE" (by decide)

/-- Claim C7: whenever classification resolves to GENERAL, route returns the
label GENERAL paired with the static capability summary, the orchestrator
state is unchanged (no agent is constructed), and the result does not depend
on the model or tool oracles (no agent run is invoked). -/
theorem C7_general_fallback (o : Orchestrator) (raw : String)
    (create : Nat → Except String ModelMessage)
    (execute_tool : String → String → Except String PyVal) (u : String)
    (h : classifyToken raw = "GENERAL") :
    o.route raw create execute_tool u = (.ok ("GENERAL", capabilitiesMessage), o) ∧
    (∀ (create2 : Nat → Except String ModelMessage)
       (execute_tool2 : String → String → Except String PyVal),
       o.route raw create2 execute_tool2 u = o.route raw create execute_tool u) := by
  have hag : o.getAgent "GENERAL" = none := rfl
  constructor
  · unfold Orchestrator.route
    rw [h]
    simp only [hag]
  · intro create2 execute_tool2
    unfold Orchestrator.route
    rw [h]
    simp only [hag]

/-- Witness for C7 at the spec's concrete scenario: the classifier returned
"UNSURE" for "What can you help me with?". -/
theorem C7_witness :
    Orchestrator.route {} "UNSURE" (fun _ => .error "na") (fun _ _ => .error "na")
      "What can you help me with?" = (.ok ("GENERAL", capabilitiesMessage), {}) := by
  exact (C7_general_fallback {} "UNSURE" (fun _ => .error "na") (fun _ _ => .error "na")
    "What can you help me with?" (by decide)).1

/-- Claim C8: each bound label's agent is constructed at most once per
Orchestrator instance: resolving a label with an empty slot constructs a
fresh agent and caches it, resolving a label with a filled slot returns the
cached instance with the state untouched, and route passes exactly the cached
instance (with its accumulated history) to the agent's run. -/
theorem C8_lazy_singleton :
    (∀ (o : Orchestrator) (cat : String),
       (o.getSlot cat = some none →
          o.getAgent cat = some (freshAgent, o.setSlot cat freshAgent)) ∧
       (∀ a, o.getSlot cat = some (some a) → o.getAgent cat = some (a, o))) ∧
    (∀ (o : Orchestrator) (cat raw : String)
       (create : Nat → Except String ModelMessage)
       (execute_tool : String → String → Except String PyVal) (u : String) (a : BaseAgent),
       classifyToken raw = cat → o.getSlot cat = some (some a) →
       o.route raw create execute_tool u =
         ((a.run create execute_tool u).1.map (fun text => (cat, text)),
          o.setSlot cat (a.run create execute_tool u).2)) ∧
    (∀ (o : Orchestrator) (cat raw : String)
       (create : Nat → Except String ModelMessage)
       (execute_tool : String → String → Except String PyVal) (u : String),
       cat ∈ boundCategories → classifyToken raw = cat → o.getSlot cat = some none →
       o.route raw create execute_tool u =
         ((freshAgent.run create execute_tool u).1.map (fun text => (cat, text)),
          o.setSlot cat (freshAgent.run create execute_tool u).2)) := by
  refine ⟨?_, ?_, ?_⟩
  · intro o cat
    constructor
    · intro hsl
      simp only [Orchestrator.getAgent, hsl]
    · intro a hsl
      simp only [Orchestrator.getAgent, hsl]
  · intro o cat raw create execute_tool u a hclass hsl
    unfold Orchestrator.route
    rw [hclass]
    simp only [Orchestrator.getAgent, hsl]
  · intro o cat raw create execute_tool u hcat hclass hsl
    unfold Orchestrator.route
    rw [hclass]
    simp only [Orchestrator.getAgent, hsl]
    rw [setSlot_setSlot o cat freshAgent _ hcat]

/-- Witness for C8: on a fresh orchestrator the CALENDAR slot constructs and
caches a fresh agent; once filled, the cached instance is returned with the
state untouched. -/
theorem C8_witness :
    Orchestrator.getAgent {} "CALENDAR" =
      some (freshAgent, Orchestrator.setSlot {} "CALENDAR" freshAgent) ∧
    Orchestrator.getAgent { calendar_agent := some freshAgent } "CALENDAR" =
      some (freshAgent, { calendar_agent := some freshAgent }) := by
  exact ⟨(C8_lazy_singleton.1 {} "CALENDAR").1 (by decide),
    (C8_lazy_singleton.1 { calendar_agent := some freshAgent } "CALENDAR").2
      freshAgent (by decide)⟩

/-- Claim C9: reset is idempotent and total: it always leaves the history
empty and the round bound intact, it is a no-op on an agent that has never
run (empty history), and Orchestrator.reset resets exactly the constructed
agents, leaving never-constructed slots as None. -/
theorem C9_reset_total :
    (∀ a : BaseAgent,
       (a.reset).conversation_history = [] ∧
       (a.reset).max_tool_rounds = a.max_tool_rounds ∧
       a.reset.reset = a.reset ∧
       (a.conversation_history = [] → a.reset = a)) ∧
    (∀ o : Orchestrator,
       (o.calendar_agent = none → (o.reset).calendar_agent = none) ∧
       (o.email_agent = none → (o.reset).email_agent = none) ∧
       (o.invoice_agent = none → (o.reset).invoice_agent = none) ∧
       (o.social_agent = none → (o.reset).social_agent = none) ∧
       (o.crm_agent = none → (o.reset).crm_agent = none) ∧
       (∀ a, o.calendar_agent = some a → (o.reset).calendar_agent = some a.reset) ∧
       (∀ a, o.email_agent = some a → (o.reset).email_agent = some a.reset) ∧
       (∀ a, o.invoice_agent = some a → (o.reset).invoice_agent = some a.reset) ∧
       (∀ a, o.social_agent = some a → (o.reset).social_agent = some a.reset) ∧
       (∀ a, o.crm_agent = some a → (o.reset).crm_agent = some a.reset)) := by
  constructor
  · intro a
    refine ⟨rfl, rfl, rfl, ?_⟩
    intro h
    cases a with
    | mk ch mtr =>
      have h2 : ch = [] := h
      subst h2
      rfl
  · intro o
    refine ⟨?_, ?_, ?_, ?_, ?_, ?_, ?_, ?_, ?_, ?_⟩ <;>
      first
        | (intro h; simp [Orchestrator.reset, h])
        | (intro a h; simp [Orchestrator.reset, h])

/-- Witness for C9: reset of a never-run agent is a no-op, and reset of an
empty orchestrator leaves every slot unconstructed. -/
theorem C9_witness :
    BaseAgent.reset freshAgent = freshAgent ∧
    (Orchestrator.reset {}).calendar_agent = none := by
  exact ⟨(C9_reset_total.1 freshAgent).2.2.2 rfl, (C9_reset_total.2 {}).1 rfl⟩

/-- Claim C10: run is not atomic on model-service failure: the user turn is
appended before the first model call, so when the model call of round j
raises, the exception propagates out of run while the user turn and the turns
of the j completed rounds remain in the history. -/
theorem C10_model_error_propagation (agent : BaseAgent)
    (create : Nat → Except String ModelMessage)
    (execute_tool : String → String → Except String PyVal) (msgs : Nat → ModelMessage)
    (u e : String) (j : Nat)
    (htool : ∀ i, i < j → create i = .ok (msgs i) ∧ (msgs i).stop_reason = "tool_use")
    (herr : create j = .error e) (hj : j < agent.max_tool_rounds) :
    agent.run create execute_tool u =
      (.error e,
       { agent with conversation_history :=
           agent.conversation_history ++ [Turn.userText u] ++
           traceFrom msgs execute_tool 0 j }) ∧
    Turn.userText u ∈ (agent.run create execute_tool u).2.conversation_history := by
  have htrace := runLoop_trace create execute_tool msgs j 0 agent.max_tool_rounds
    (agent.conversation_history ++ [Turn.userText u])
    (fun i hi => by simpa using htool i hi) (Nat.le_of_lt hj)
  obtain ⟨m1, hm1⟩ : ∃ f, agent.max_tool_rounds - j = f + 1 :=
    ⟨agent.max_tool_rounds - j - 1, by omega⟩
  rw [hm1] at htrace
  rw [runLoop_modelError create execute_tool (0 + j) m1 _ e (by simpa using herr)]
    at htrace
  have hrun := BaseAgent.run_eq agent create execute_tool u
  rw [htrace] at hrun
  refine ⟨by rw [hrun], ?_⟩
  rw [hrun]
  simp

/-- Witness for C10: the model raises on the first call; run propagates the
error and the user turn stays in the history. -/
theorem C10_witness :
    BaseAgent.run {} (fun _ => .error "boom") (fun _ _ => .ok (.str "")) "hi" =
      (.error "boom",
       { conversation_history := [Turn.userText "hi"], max_tool_rounds := 10 }) := by
  have h := C10_model_error_propagation {} (fun _ => .error "boom")
    (fun _ _ => .ok (.str "")) (fun _ => ⟨"", []⟩) "hi" "boom" 0
    (by decide) (by decide) (by decide)
  simpa using h.1

end Muse


